import Mathlib

/-!
Shallow embedding of the TabularCleaner core of the repository
(`src/agents/data_engineer.py`): the three tool operations
`profile_data`, `check_missing` and `clean_data`.

Modelling conventions:
* A parsed CSV (the pandas `DataFrame` produced by `pd.read_csv`) is a
  `Dataset`: a header of column names plus a list of rows of `Cell`s.
  A cell is missing (`na`, pandas `NaN`), numeric (`num`, pandas
  `int64`/`float64` values) or textual (`str`, pandas `object` values).
* Machine floats are modelled by exact rationals `ℚ`.  Every statistic
  used by the code (median, linear-interpolation quantiles, mean) is
  rational-valued on rational inputs, so the arithmetic is represented
  exactly; `numpy`'s float rounding is not modelled.
* pandas column-type inference for CSV input: a column is numeric when
  it has at least one row and every non-missing entry is a number
  (a header-only CSV parses every column as `object`).
* File I/O: a read either yields a parsed `Dataset` or fails; this is
  the `Option Dataset` argument of each operation (`none` models
  `FileNotFoundError` / parse errors raised by `pd.read_csv`).  A write
  either succeeds or raises; this is the `writeOk` flag of `clean_data`.
  Since `df.to_csv` followed by `pd.read_csv` round-trips the values
  written here, the written file is modelled as the final `Dataset`.
* Python exceptions are the `Except String` layer; the blanket
  `try/except` of each tool is `catchAll`, which turns any raised
  exception into the structured `{"error": ...}` JSON result.  This
  includes the `TypeError` that `json.dumps` raises inside
  `profile_data` when the frame has no numeric column (the numpy `int64`
  `count`/`freq` values of `df.describe()`'s object fallback are not
  JSON serializable); see `profileRaw`.
  The pass-through strings `file`/`input_file`/`output_file` that the
  JSON reports echo verbatim are not modelled.
-/

namespace DataEng

/-- One cell of a parsed tabular dataset: missing (`NaN`), numeric, or text. -/
inductive Cell where
  | na  : Cell
  | num : ℚ → Cell
  | str : String → Cell
deriving DecidableEq, Repr

abbrev Row := List Cell

/-- A parsed CSV file: header row plus data rows (pandas `DataFrame`). -/
structure Dataset where
  header : List String
  rows : List Row
deriving DecidableEq, Repr

/-- Well-formed frame: every row has one cell per header column. -/
def Dataset.wf (df : Dataset) : Prop :=
  ∀ r ∈ df.rows, r.length = df.header.length

instance (df : Dataset) : Decidable df.wf := by
  unfold Dataset.wf; infer_instance

def ncols (df : Dataset) : Nat := df.header.length

def nrows (df : Dataset) : Nat := df.rows.length

/-- The cells of column `j`, top to bottom (`df[col]`). -/
def colCells (df : Dataset) (j : Nat) : List Cell :=
  df.rows.map (fun r => r.getD j Cell.na)

/-- Numeric-or-missing cell (contributes to `float64`/`int64` inference). -/
def isNumCell : Cell → Bool
  | Cell.na => true
  | Cell.num _ => true
  | Cell.str _ => false

/-- pandas dtype inference on CSV input: a column is numeric iff the frame has
at least one row and every non-missing cell of the column parses as a number.
(A header-only CSV yields `object` dtype for every column.) -/
def isNumericCol (df : Dataset) (j : Nat) : Bool :=
  !df.rows.isEmpty && (colCells df j).all isNumCell

/-- Indices of the numeric columns, in header order
(`df.select_dtypes(include=[np.number]).columns`). -/
def numericIdx (df : Dataset) : List Nat :=
  (List.range (ncols df)).filter (isNumericCol df)

/-- The numeric values of a list of cells, missing entries skipped. -/
def nonNA (cs : List Cell) : List ℚ :=
  cs.filterMap (fun c => match c with | Cell.num q => some q | _ => none)

/-- Number of missing cells in column `j` (`df[col].isnull().sum()`). -/
def missingCount (df : Dataset) (j : Nat) : Nat :=
  ((colCells df j).filter (· = Cell.na)).length

/-- Ascending sort of a list of rationals. -/
def sortQ (l : List ℚ) : List ℚ := l.insertionSort (· ≤ ·)

/-- Python `round(x, k)`-style rounding of `x * 10^k` to the nearest integer,
ties to even (the IEEE convention Python and numpy follow; exact on `ℚ`). -/
def rhe (q : ℚ) : ℤ :=
  let f := ⌊q⌋
  let r := q - (f : ℚ)
  if r < 1/2 then f
  else if (1:ℚ)/2 < r then f + 1
  else if f % 2 = 0 then f else f + 1

/-- Python `round(x, 2)`. -/
def round2 (q : ℚ) : ℚ := (rhe (q * 100) : ℚ) / 100

/-- Python `round(x, 4)`. -/
def round4 (q : ℚ) : ℚ := (rhe (q * 10000) : ℚ) / 10000

/-- pandas `Series.median()` over the non-missing values: middle element of the
sorted values, or the mean of the two middle elements; `NaN` (`none`) on an
empty list (`sortQ` preserves length, so `l.length` is the sorted length). -/
def median (l : List ℚ) : Option ℚ :=
  if l.length = 0 then none
  else if l.length % 2 = 1 then some ((sortQ l).getD (l.length / 2) 0)
  else some (((sortQ l).getD (l.length / 2 - 1) 0 + (sortQ l).getD (l.length / 2) 0) / 2)

/-- Linear interpolation into a (sorted) value list at fractional position
`hq`: `s⌊hq⌋ + (hq - ⌊hq⌋)·(s⌊hq⌋₊₁ - s⌊hq⌋)`, with the top element used when
`⌊hq⌋` is the last index. -/
def interp (s : List ℚ) (hq : ℚ) : ℚ :=
  if (⌊hq⌋).toNat + 1 < s.length then
    s.getD (⌊hq⌋).toNat 0 +
      (hq - ((⌊hq⌋).toNat : ℚ)) * (s.getD ((⌊hq⌋).toNat + 1) 0 - s.getD (⌊hq⌋).toNat 0)
  else s.getD (s.length - 1) 0

/-- pandas `Series.quantile(q)` with linear interpolation over the non-missing
values: interpolation at position `q·(n-1)` into the sorted values;
`NaN` (`none`) on an empty list. -/
def quantile (q : ℚ) (l : List ℚ) : Option ℚ :=
  if l.length = 0 then none
  else some (interp (sortQ l) (q * ((l.length : ℚ) - 1)))

/-- Replace column `j` cell-wise (`df[col] = f(df[col])`). Rows shorter than
`j+1` cells are left unchanged (cannot occur on a well-formed frame). -/
def updateCol (df : Dataset) (j : Nat) (f : Cell → Cell) : Dataset :=
  { df with rows := df.rows.map (fun r => r.set j (f (r.getD j Cell.na))) }

/-- numpy `clip`: `min(upper, max(lower, v))`. -/
def clipQ (lower upper v : ℚ) : ℚ := min upper (max lower v)

/-- pandas `fillna(v)` on one cell. -/
def fillCell (v : ℚ) : Cell → Cell
  | Cell.na => Cell.num v
  | c => c

/-- Per-column record of the `filled_missing` report section.  `fill_value`
is `none` when the recorded value is `NaN` (all-missing column). -/
structure FillEntry where
  filled_count : Nat
  fill_value : Option ℚ
deriving DecidableEq, Repr

/-- Per-column record of the `capped_outliers` report section. -/
structure CapEntry where
  capped_count : Nat
  lower : ℚ
  upper : ℚ
deriving DecidableEq, Repr

/-- The assignment `df[col] = df[col].fillna(df[col].median())`: fill the missing cells of
column `j` with the column median (`fillna` of `NaN` is a no-op on an
all-missing column). -/
def fillOne (df : Dataset) (j : Nat) : Dataset :=
  match median (nonNA (colCells df j)) with
  | some v => updateCol df j (fillCell v)
  | none => df

/-- Step 1 of `clean_data`: for each listed column index in order, if the
column has missing cells, fill them with the column median of the
non-missing values and record `{filled_count, fill_value = round(median, 4)}`. -/
def fillCols : Dataset → List Nat → Dataset × List (Nat × FillEntry)
  | df, [] => (df, [])
  | df, j :: js =>
    if missingCount df j > 0 then
      ((fillCols (fillOne df j) js).1,
       (j, ⟨missingCount df j, (median (nonNA (colCells df j))).map round4⟩) ::
         (fillCols (fillOne df j) js).2)
    else
      fillCols df js

/-- pandas `df.drop_duplicates()`: drop rows equal to an earlier row, keeping the
first occurrence (pandas compares `NaN` equal to `NaN` here). -/
def dedupFrom (seen : List Row) : List Row → List Row
  | [] => []
  | r :: rs => if r ∈ seen then dedupFrom seen rs else r :: dedupFrom (r :: seen) rs

def dedup (rows : List Row) : List Row := dedupFrom [] rows

/-- The count `((df[col] < p1) | (df[col] > p99)).sum()`: the number of values strictly
outside `[p1, p99]` (the comparisons are false on missing cells, which are
skipped by `nonNA` before this is applied). -/
def outlierCount (cs : List ℚ) (p1 p99 : ℚ) : Nat :=
  cs.countP (fun v => decide (v < p1) || decide (p99 < v))

/-- pandas `clip(lower=p1, upper=p99)` on one cell: numeric values are clamped,
missing (and text) cells are untouched. -/
def clipCell (p1 p99 : ℚ) : Cell → Cell
  | Cell.num v => Cell.num (clipQ p1 p99 v)
  | c => c

/-- The assignment `df[col] = df[col].clip(lower=p1, upper=p99)`. -/
def capOne (df : Dataset) (j : Nat) (p1 p99 : ℚ) : Dataset :=
  updateCol df j (clipCell p1 p99)

/-- Step 3 of `clean_data`: for each listed column index in order, compute the
1st and 99th percentiles, count the values strictly outside `[p1, p99]`, and
when the count is positive clip the column and record
`{capped_count, lower = round(p1,4), upper = round(p99,4)}`.  On an
all-missing column both quantiles are `NaN`, every comparison with `NaN` is
false, so the count is `0` and the column is skipped. -/
def capCols : Dataset → List Nat → Dataset × List (Nat × CapEntry)
  | df, [] => (df, [])
  | df, j :: js =>
    match quantile (1/100) (nonNA (colCells df j)),
          quantile (99/100) (nonNA (colCells df j)) with
    | some p1, some p99 =>
      if outlierCount (nonNA (colCells df j)) p1 p99 > 0 then
        ((capCols (capOne df j p1 p99) js).1,
         (j, ⟨outlierCount (nonNA (colCells df j)) p1 p99, round4 p1, round4 p99⟩) ::
           (capCols (capOne df j p1 p99) js).2)
      else
        capCols df js
    | _, _ => capCols df js

/-- The `clean_data` JSON report (the verbatim `input_file`/`output_file`
path echoes are not modelled). -/
structure CleaningReport where
  original_rows : Nat
  filled_missing : List (String × FillEntry)
  duplicates_removed : Nat
  capped_outliers : List (String × CapEntry)
  cleaned_rows : Nat
deriving DecidableEq, Repr

/-- Impute step applied to the numeric columns of the input frame. -/
def step1 (df : Dataset) : Dataset × List (Nat × FillEntry) :=
  fillCols df (numericIdx df)

/-- Deduplication step applied after imputation. -/
def step2 (df : Dataset) : Dataset :=
  { (step1 df).1 with rows := dedup (step1 df).1.rows }

/-- Outlier-capping step applied after deduplication, over the numeric
columns of the original input frame (as in the source). -/
def step3 (df : Dataset) : Dataset × List (Nat × CapEntry) :=
  capCols (step2 df) (numericIdx df)

/-- The body of `clean_data` after a successful `pd.read_csv`: fill missing
numeric cells with the column median, drop duplicate rows, cap outliers at
the 1st/99th percentiles, and return the report plus the written frame. -/
def cleanData (df : Dataset) : CleaningReport × Dataset :=
  let colName := fun j => df.header.getD j ""
  ({ original_rows := nrows df,
     filled_missing := (step1 df).2.map (fun e => (colName e.1, e.2)),
     duplicates_removed := nrows (step1 df).1 - nrows (step2 df),
     capped_outliers := (step3 df).2.map (fun e => (colName e.1, e.2)),
     cleaned_rows := nrows (step3 df).1 },
   (step3 df).1)

/-- Arithmetic mean of a list of rationals; `NaN` (`none`) on an empty list
(pandas `Series.mean`). -/
def meanQ (l : List ℚ) : Option ℚ :=
  if l.length = 0 then none else some (l.sum / (l.length : ℚ))

/-- Sample variance with Bessel's correction (`ddof=1`); `NaN` for fewer than
two values.  `df.describe()` reports `std = sqrt` of this; the square root is
irrational in general, so the frame's `std` row is modelled by the variance
it is the square root of. -/
def varQ (l : List ℚ) : Option ℚ :=
  if l.length < 2 then none
  else
    match meanQ l with
    | none => none
    | some μ => some ((l.map (fun x => (x - μ) * (x - μ))).sum / ((l.length : ℚ) - 1))

/-- Number of occurrences of `x` in `l`. -/
def countVal (x : String) (l : List String) : Nat := (l.filter (· = x)).length

/-- The modal value of a list of strings: the earliest value attaining the
maximal multiplicity (`describe()`'s `top`; pandas leaves the tie order
unspecified, modelled as first occurrence). `none` on an empty list. -/
def topVal (l : List String) : Option String :=
  (l.dedup).foldl
    (fun best x =>
      match best with
      | none => some x
      | some b => if countVal x l > countVal b l then some x else some b)
    none

/-- One column of `df.describe().round(4)`: the numeric summary for
numeric columns, the count/unique/top/freq summary for `object` columns
(the fallback pandas uses when the frame has no numeric column). -/
inductive ColDescribe where
  | numeric (count : Nat) (mean variance minv q25 q50 q75 maxv : Option ℚ)
  | object (count : Nat) (unique : Nat) (top : Option String) (freq : Option Nat)
deriving DecidableEq, Repr

/-- Text values of a column, missing entries skipped. -/
def strVals (cs : List Cell) : List String :=
  cs.filterMap (fun c => match c with | Cell.str s => some s | _ => none)

/-- The `df.describe()` summary of one column, rounded to 4 decimals. -/
def describeCol (df : Dataset) (j : Nat) : ColDescribe :=
  if isNumericCol df j then
    let v := nonNA (colCells df j)
    ColDescribe.numeric v.length ((meanQ v).map round4) ((varQ v).map round4)
      (v.min?.map round4) ((quantile (25/100) v).map round4)
      ((quantile (50/100) v).map round4) ((quantile (75/100) v).map round4)
      (v.max?.map round4)
  else
    let v := strVals (colCells df j)
    ColDescribe.object v.length v.dedup.length (topVal v)
      ((topVal v).map (fun t => countVal t v))

/-- The columns `df.describe()` covers: the numeric columns when at least one
exists, otherwise (all-`object` frame) every column. -/
def describeIdx (df : Dataset) : List Nat :=
  if numericIdx df = [] then List.range (ncols df) else numericIdx df

/-- The `profile_data` JSON result (the verbatim `file` path echo is not
modelled).  `missing_pct` entries are `none` (`NaN`) on a zero-row frame,
where `df.isnull().mean()` is `0/0`. -/
structure DatasetProfile where
  rows : Nat
  columns : Nat
  column_names : List String
  dtypes : List (String × String)
  missing_counts : List (String × Nat)
  missing_pct : List (String × Option ℚ)
  statistics : List (String × ColDescribe)
deriving DecidableEq, Repr

/-- Percentage of missing cells in column `j`
(`(df.isnull().mean() * 100).round(2)`); `NaN` on a zero-row frame. -/
def missingPct (df : Dataset) (j : Nat) : Option ℚ :=
  if nrows df = 0 then none
  else some (round2 ((missingCount df j : ℚ) / (nrows df : ℚ) * 100))

/-- The body of `profile_data` after a successful `pd.read_csv`. -/
def profileOf (df : Dataset) : DatasetProfile :=
  let colName := fun j => df.header.getD j ""
  { rows := nrows df,
    columns := ncols df,
    column_names := df.header,
    dtypes := (List.range (ncols df)).map
      (fun j => (colName j, if isNumericCol df j then "float64" else "object")),
    missing_counts := (List.range (ncols df)).map (fun j => (colName j, missingCount df j)),
    missing_pct := (List.range (ncols df)).map (fun j => (colName j, missingPct df j)),
    statistics := (describeIdx df).map (fun j => (colName j, describeCol df j)) }

/-- The `check_missing` JSON result (verbatim `file` echo not modelled). -/
structure MissingReport where
  total_rows : Nat
  missing_by_column : List (String × Nat × ℚ)
deriving DecidableEq, Repr

/-- Python division: `ZeroDivisionError` on a zero divisor. -/
def pyDiv (a b : ℚ) : Except String ℚ :=
  if b = 0 then Except.error "division by zero" else Except.ok (a / b)

/-- The per-column loop of `check_missing`: for each column,
`round(n_missing / len(df) * 100, 2)` — the division raises
`ZeroDivisionError` on a zero-row frame. -/
def cmLoop (df : Dataset) : List Nat → Except String (List (String × Nat × ℚ))
  | [] => Except.ok []
  | j :: js => do
    let q ← pyDiv (missingCount df j : ℚ) (nrows df : ℚ)
    let rest ← cmLoop df js
    pure ((df.header.getD j "", missingCount df j, round2 (q * 100)) :: rest)

/-- Outcome of a tool call as the agent layer sees it: a structured success,
a structured `{"error": ...}` payload, or an exception escaping the tool. -/
inductive ToolResult (α : Type) where
  | ok : α → ToolResult α
  | errorJson : String → ToolResult α
  | uncaught : String → ToolResult α
deriving DecidableEq, Repr

/-- The blanket `try/except` of each tool: any raised exception becomes the
structured `{"error": str(exc)}` result. -/
def catchAll {α : Type} (x : Except String α) : ToolResult α :=
  match x with
  | Except.ok a => ToolResult.ok a
  | Except.error e => ToolResult.errorJson e

/-- Operation `profile_data` before its `try/except`: the read may raise, and
the final `json.dumps` raises `TypeError` whenever the frame has no numeric
column.  In that case `df.describe()` falls back to the object summary, whose
`count` (`Series.count()`) and `freq` (`value_counts().iloc[0]`) are numpy
`int64` scalars; they survive `.round(4)` (a no-op on object blocks) and
`.to_dict()` (object-dtype series are not boxed to native types), and
`json.dumps` cannot serialize them.  On every other path the values are
native (`Series.to_dict` boxes `int64`/`float64` data) and serialization
succeeds. -/
def profileRaw (input : Option Dataset) : Except String DatasetProfile :=
  match input with
  | none => Except.error "read_csv failed"
  | some df =>
    if numericIdx df = [] then
      Except.error "Object of type int64 is not JSON serializable"
    else Except.ok (profileOf df)

/-- Operation `check_missing` before its `try/except`: the read may raise, and the
per-column percentage division raises on a zero-row frame. -/
def checkMissingRaw (input : Option Dataset) : Except String MissingReport :=
  match input with
  | none => Except.error "read_csv failed"
  | some df => do
    let entries ← cmLoop df (List.range (ncols df))
    pure { total_rows := nrows df, missing_by_column := entries }

/-- Operation `clean_data` before its `try/except`: the read may raise, and the final
`os.makedirs`/`to_csv` write may raise (`writeOk = false`). -/
def cleanRaw (input : Option Dataset) (writeOk : Bool) :
    Except String (CleaningReport × Dataset) :=
  match input with
  | none => Except.error "read_csv failed"
  | some df =>
    if writeOk then Except.ok (cleanData df) else Except.error "write failed"

/-- The `profile_data` tool. -/
def profile_data (input : Option Dataset) : ToolResult DatasetProfile :=
  catchAll (profileRaw input)

/-- The `check_missing` tool. -/
def check_missing (input : Option Dataset) : ToolResult MissingReport :=
  catchAll (checkMissingRaw input)

/-- The `clean_data` tool. -/
def clean_data (input : Option Dataset) (writeOk : Bool) :
    ToolResult (CleaningReport × Dataset) :=
  catchAll (cleanRaw input writeOk)

/-! ### Column-level views of the two per-column loops

`fillT`/`capT` describe what one pass of the fill loop (resp. cap loop) does
to the cells of a single column, and `fillEntry?`/`capEntry?` the report entry
it records; the theorems below prove that `fillCols`/`capCols` act column-wise
according to these. -/

/-- Effect of the fill loop on the cells of one column. -/
def fillT (cs : List Cell) : List Cell :=
  if (cs.filter (· = Cell.na)).length > 0 then
    match median (nonNA cs) with
    | some v => cs.map (fillCell v)
    | none => cs
  else cs

/-- Report entry the fill loop records for one column (`none`: no entry). -/
def fillEntry? (cs : List Cell) : Option FillEntry :=
  if (cs.filter (· = Cell.na)).length > 0 then
    some ⟨(cs.filter (· = Cell.na)).length, (median (nonNA cs)).map round4⟩
  else none

/-- Effect of the cap loop on the cells of one column. -/
def capT (cs : List Cell) : List Cell :=
  match quantile (1/100) (nonNA cs), quantile (99/100) (nonNA cs) with
  | some p1, some p99 =>
    if outlierCount (nonNA cs) p1 p99 > 0 then cs.map (clipCell p1 p99) else cs
  | _, _ => cs

/-- Report entry the cap loop records for one column (`none`: no entry). -/
def capEntry? (cs : List Cell) : Option CapEntry :=
  match quantile (1/100) (nonNA cs), quantile (99/100) (nonNA cs) with
  | some p1, some p99 =>
    if outlierCount (nonNA cs) p1 p99 > 0 then
      some ⟨outlierCount (nonNA cs) p1 p99, round4 p1, round4 p99⟩
    else none
  | _, _ => none

/-! ### Concrete frames used as counterexamples and witnesses -/

/-- Two rows, numeric column `a`, all-missing (hence `float64`) column `b`. -/
def exAllNA : Dataset :=
  ⟨["a", "b"], [[Cell.num 1, Cell.na], [Cell.num 2, Cell.na]]⟩

/-- Three rows, one missing cell in the single numeric column. -/
def exFill : Dataset := ⟨["a"], [[Cell.na], [Cell.num 1], [Cell.num 3]]⟩

/-- Two distinct numeric rows, no missing values, no duplicates. -/
def exTwo : Dataset := ⟨["a"], [[Cell.num 1], [Cell.num 2]]⟩

/-- A header-only frame: one column, zero data rows. -/
def exZeroRows : Dataset := ⟨["a"], []⟩

/-- A column whose median `2·10⁻⁵` has more than 4 decimal places. -/
def exTinyMedian : Dataset :=
  ⟨["a"], [[Cell.na], [Cell.num (1/100000)], [Cell.num (3/100000)]]⟩

/-- A purely textual frame (no numeric column). -/
def exTextOnly : Dataset := ⟨["name"], [[Cell.str "x"], [Cell.str "y"]]⟩

/-- One-row numeric frame. -/
def exOne : Dataset := ⟨["a"], [[Cell.num 1]]⟩

/-- A frame with one numeric and one textual column. -/
def exMixed : Dataset :=
  ⟨["a", "t"], [[Cell.num 1, Cell.str "x"], [Cell.num 2, Cell.str "y"]]⟩

/- The Batteries implementations of the `ℚ` field operations are marked
irreducible, which blocks `decide` on concrete rational computations; make
them semireducible locally so that the concrete counterexamples and
witnesses below evaluate. -/
section
attribute [local semireducible] Rat.add Rat.mul Rat.inv Rat.sub

/-! ### Structural lemmas: `updateCol` -/

theorem updateCol_header (df : Dataset) (j : Nat) (f : Cell → Cell) :
    (updateCol df j f).header = df.header := rfl

theorem updateCol_rowLens (df : Dataset) (j : Nat) (f : Cell → Cell) :
    (updateCol df j f).rows.map List.length = df.rows.map List.length := by
  simp [updateCol, List.map_map, Function.comp_def]

theorem colCells_updateCol_ne (df : Dataset) {j k : Nat} (h : j ≠ k) (f : Cell → Cell) :
    colCells (updateCol df j f) k = colCells df k := by
  unfold colCells updateCol
  simp only [List.map_map]
  apply List.map_congr_left
  intro r _
  simp [Function.comp_def, List.getD_eq_getElem?_getD, List.getElem?_set_ne h]

theorem colCells_updateCol_self (df : Dataset) (j : Nat) (f : Cell → Cell)
    (h : ∀ r ∈ df.rows, j < r.length) :
    colCells (updateCol df j f) j = (colCells df j).map f := by
  unfold colCells updateCol
  simp only [List.map_map]
  apply List.map_congr_left
  intro r hr
  simp [Function.comp_def, List.getD_eq_getElem?_getD, List.getElem?_set_self, h r hr]

/-! ### Transporting shape facts between frames with equal row lengths -/

theorem nrows_of_rowLens {df df' : Dataset}
    (hl : df'.rows.map List.length = df.rows.map List.length) : nrows df' = nrows df := by
  have := congrArg List.length hl
  simpa [nrows] using this

theorem wf_of_rowLens {df df' : Dataset} (hh : df'.header = df.header)
    (hl : df'.rows.map List.length = df.rows.map List.length) (h : df.wf) : df'.wf := by
  intro r hr
  have hm : r.length ∈ df'.rows.map List.length := List.mem_map_of_mem _ hr
  rw [hl] at hm
  obtain ⟨r₀, hr₀, he⟩ := List.mem_map.mp hm
  rw [hh, ← he]
  exact h r₀ hr₀

theorem rowlen_of_rowLens {df df' : Dataset}
    (hl : df'.rows.map List.length = df.rows.map List.length)
    {n : Nat} (h : ∀ r ∈ df.rows, n < r.length) : ∀ r ∈ df'.rows, n < r.length := by
  intro r hr
  have hm : r.length ∈ df'.rows.map List.length := List.mem_map_of_mem _ hr
  rw [hl] at hm
  obtain ⟨r₀, hr₀, he⟩ := List.mem_map.mp hm
  rw [← he]
  exact h r₀ hr₀

theorem wf_rowlen {df : Dataset} (h : df.wf) {n : Nat} (hn : n < ncols df) :
    ∀ r ∈ df.rows, n < r.length := by
  intro r hr
  rw [h r hr]
  exact hn

/-! ### Structural lemmas: `dedup` -/

theorem dedupFrom_sublist : ∀ (rows seen : List Row), (dedupFrom seen rows).Sublist rows
  | [], _ => List.Sublist.refl _
  | r :: rs, seen => by
    unfold dedupFrom
    by_cases h : r ∈ seen
    · rw [if_pos h]
      exact (dedupFrom_sublist rs seen).cons _
    · rw [if_neg h]
      exact (dedupFrom_sublist rs (r :: seen)).cons₂ _

theorem dedup_sublist (rows : List Row) : (dedup rows).Sublist rows :=
  dedupFrom_sublist rows []

theorem dedupFrom_of_nodup : ∀ (rows seen : List Row), rows.Nodup →
    (∀ r ∈ rows, r ∉ seen) → dedupFrom seen rows = rows
  | [], _, _, _ => rfl
  | r :: rs, seen, hnd, hdisj => by
    unfold dedupFrom
    rw [if_neg (hdisj r (List.mem_cons_self r rs))]
    have hr : r ∉ rs := (List.nodup_cons.mp hnd).1
    have : dedupFrom (r :: seen) rs = rs := by
      apply dedupFrom_of_nodup rs (r :: seen) (List.nodup_cons.mp hnd).2
      intro x hx
      rw [List.mem_cons]
      push_neg
      exact ⟨fun he => hr (he ▸ hx), hdisj x (List.mem_cons_of_mem r hx)⟩
    rw [this]

theorem dedup_of_nodup {rows : List Row} (h : rows.Nodup) : dedup rows = rows :=
  dedupFrom_of_nodup rows [] h (fun _ _ => List.not_mem_nil _)

/-! ### Sorting and quantile monotonicity -/

theorem sortQ_length (l : List ℚ) : (sortQ l).length = l.length :=
  List.length_insertionSort _ _

theorem sortQ_sorted (l : List ℚ) : List.Sorted (· ≤ ·) (sortQ l) :=
  List.sorted_insertionSort _ _

theorem sorted_getD_mono {s : List ℚ} (hs : List.Sorted (· ≤ ·) s) {i k : Nat}
    (hik : i ≤ k) (hk : k < s.length) : s.getD i 0 ≤ s.getD k 0 := by
  rcases Nat.eq_or_lt_of_le hik with rfl | hlt
  · exact le_refl _
  · have hi : i < s.length := lt_of_le_of_lt hik hk
    simp only [List.getD_eq_getElem?_getD, List.getElem?_eq_getElem hi,
      List.getElem?_eq_getElem hk, Option.getD_some]
    exact hs.rel_get_of_lt hlt

theorem floor_toNat_le {h : ℚ} (hh : 0 ≤ h) : ((⌊h⌋.toNat : ℚ)) ≤ h := by
  have h0 : (0 : ℤ) ≤ ⌊h⌋ := Int.floor_nonneg.mpr hh
  have : ((⌊h⌋.toNat : ℤ) : ℚ) = (⌊h⌋ : ℚ) := by
    rw [Int.toNat_of_nonneg h0]
  push_cast at this
  rw [this]
  exact Int.floor_le h

theorem lt_floor_toNat_add_one {h : ℚ} (hh : 0 ≤ h) : h < (⌊h⌋.toNat : ℚ) + 1 := by
  have h0 : (0 : ℤ) ≤ ⌊h⌋ := Int.floor_nonneg.mpr hh
  have he : ((⌊h⌋.toNat : ℤ) : ℚ) = (⌊h⌋ : ℚ) := by
    rw [Int.toNat_of_nonneg h0]
  push_cast at he
  rw [he]
  exact Int.lt_floor_add_one h

theorem floor_toNat_mono {h1 h2 : ℚ} (hle : h1 ≤ h2) : ⌊h1⌋.toNat ≤ ⌊h2⌋.toNat :=
  Int.toNat_le_toNat (Int.floor_le_floor hle)

/-- Linear interpolation into a sorted list is monotone in the position. -/
theorem interp_mono {s : List ℚ} (hs : List.Sorted (· ≤ ·) s) (hne : s ≠ [])
    {h1 h2 : ℚ} (h10 : 0 ≤ h1) (h12 : h1 ≤ h2) : interp s h1 ≤ interp s h2 := by
  have h20 : 0 ≤ h2 := le_trans h10 h12
  have hn : 0 < s.length := List.length_pos.mpr hne
  have hii : (⌊h1⌋).toNat ≤ (⌊h2⌋).toNat := floor_toNat_mono h12
  have hg1 : h1 - ((⌊h1⌋).toNat : ℚ) < 1 := by
    have := lt_floor_toNat_add_one h10
    linarith
  have hg1p : (0 : ℚ) ≤ h1 - ((⌊h1⌋).toNat : ℚ) := by
    have := floor_toNat_le h10
    linarith
  have hg2p : (0 : ℚ) ≤ h2 - ((⌊h2⌋).toNat : ℚ) := by
    have := floor_toNat_le h20
    linarith
  unfold interp
  by_cases hb2 : (⌊h2⌋).toNat + 1 < s.length
  · have hb1 : (⌊h1⌋).toNat + 1 < s.length := lt_of_le_of_lt (by omega) hb2
    rw [if_pos hb1, if_pos hb2]
    have hd1 : s.getD (⌊h1⌋).toNat 0 ≤ s.getD ((⌊h1⌋).toNat + 1) 0 :=
      sorted_getD_mono hs (Nat.le_succ _) (by omega)
    have hd2 : s.getD (⌊h2⌋).toNat 0 ≤ s.getD ((⌊h2⌋).toNat + 1) 0 :=
      sorted_getD_mono hs (Nat.le_succ _) hb2
    rcases Nat.eq_or_lt_of_le hii with he | hlt
    · rw [← he]
      have hgg : h1 - ((⌊h1⌋).toNat : ℚ) ≤ h2 - ((⌊h1⌋).toNat : ℚ) := by linarith
      have he' : h2 - ((⌊h2⌋).toNat : ℚ) = h2 - ((⌊h1⌋).toNat : ℚ) := by rw [← he]
      nlinarith [hgg, hd1]
    · have hup : s.getD (⌊h1⌋).toNat 0 +
          (h1 - ((⌊h1⌋).toNat : ℚ)) * (s.getD ((⌊h1⌋).toNat + 1) 0 - s.getD (⌊h1⌋).toNat 0) ≤
          s.getD ((⌊h1⌋).toNat + 1) 0 := by nlinarith
      have hmid : s.getD ((⌊h1⌋).toNat + 1) 0 ≤ s.getD (⌊h2⌋).toNat 0 :=
        sorted_getD_mono hs (by omega) (by omega)
      have hlow : s.getD (⌊h2⌋).toNat 0 ≤ s.getD (⌊h2⌋).toNat 0 +
          (h2 - ((⌊h2⌋).toNat : ℚ)) * (s.getD ((⌊h2⌋).toNat + 1) 0 - s.getD (⌊h2⌋).toNat 0) := by
        nlinarith
      linarith
  · rw [if_neg hb2]
    by_cases hb1 : (⌊h1⌋).toNat + 1 < s.length
    · rw [if_pos hb1]
      have hd1 : s.getD (⌊h1⌋).toNat 0 ≤ s.getD ((⌊h1⌋).toNat + 1) 0 :=
        sorted_getD_mono hs (Nat.le_succ _) hb1
      have hup : s.getD (⌊h1⌋).toNat 0 +
          (h1 - ((⌊h1⌋).toNat : ℚ)) * (s.getD ((⌊h1⌋).toNat + 1) 0 - s.getD (⌊h1⌋).toNat 0) ≤
          s.getD ((⌊h1⌋).toNat + 1) 0 := by nlinarith
      have hend : s.getD ((⌊h1⌋).toNat + 1) 0 ≤ s.getD (s.length - 1) 0 :=
        sorted_getD_mono hs (by omega) (by omega)
      linarith
    · rw [if_neg hb1]

theorem quantile_mono {l : List ℚ} (hne : l ≠ []) {a b va vb : ℚ}
    (ha0 : 0 ≤ a) (hab : a ≤ b)
    (hqa : quantile a l = some va) (hqb : quantile b l = some vb) : va ≤ vb := by
  have hn : l.length ≠ 0 := fun h => hne (List.length_eq_zero.mp h)
  unfold quantile at hqa hqb
  rw [if_neg hn] at hqa hqb
  have hsne : sortQ l ≠ [] := by
    intro h
    exact hn (by rw [← sortQ_length l, h]; rfl)
  have hn1 : (0 : ℚ) ≤ (l.length : ℚ) - 1 := by
    have : (1 : ℚ) ≤ (l.length : ℚ) := by
      have := Nat.one_le_iff_ne_zero.mpr hn
      exact_mod_cast this
    linarith
  have hmono := interp_mono (sortQ_sorted l) hsne
    (mul_nonneg ha0 hn1) (mul_le_mul_of_nonneg_right hab hn1)
  rw [Option.some_inj.mp hqa, Option.some_inj.mp hqb] at hmono
  exact hmono

/-! ### The fill loop acts column-wise -/

theorem fillOne_header (df : Dataset) (j : Nat) : (fillOne df j).header = df.header := by
  unfold fillOne
  cases median (nonNA (colCells df j)) <;> rfl

theorem fillOne_rowLens (df : Dataset) (j : Nat) :
    (fillOne df j).rows.map List.length = df.rows.map List.length := by
  unfold fillOne
  cases median (nonNA (colCells df j))
  · rfl
  · exact updateCol_rowLens df j _

theorem fillOne_colCells_ne (df : Dataset) {j k : Nat} (h : j ≠ k) :
    colCells (fillOne df j) k = colCells df k := by
  unfold fillOne
  cases median (nonNA (colCells df j))
  · rfl
  · exact colCells_updateCol_ne df h _

theorem fillCols_header : ∀ (js : List Nat) (df : Dataset),
    (fillCols df js).1.header = df.header
  | [], _ => rfl
  | j :: js, df => by
    rw [fillCols]
    by_cases h : missingCount df j > 0
    · rw [if_pos h]
      exact (fillCols_header js (fillOne df j)).trans (fillOne_header df j)
    · rw [if_neg h]
      exact fillCols_header js df

theorem fillCols_rowLens : ∀ (js : List Nat) (df : Dataset),
    (fillCols df js).1.rows.map List.length = df.rows.map List.length
  | [], _ => rfl
  | j :: js, df => by
    rw [fillCols]
    by_cases h : missingCount df j > 0
    · rw [if_pos h]
      exact (fillCols_rowLens js (fillOne df j)).trans (fillOne_rowLens df j)
    · rw [if_neg h]
      exact fillCols_rowLens js df

theorem fillCols_colCells_not_mem : ∀ (js : List Nat) (df : Dataset) {k : Nat}, k ∉ js →
    colCells (fillCols df js).1 k = colCells df k
  | [], _, _, _ => rfl
  | j :: js, df, k, hk => by
    have hjk : j ≠ k := fun he => hk (he ▸ List.mem_cons_self j js)
    have hk' : k ∉ js := fun hm => hk (List.mem_cons_of_mem j hm)
    rw [fillCols]
    by_cases h : missingCount df j > 0
    · rw [if_pos h]
      exact (fillCols_colCells_not_mem js (fillOne df j) hk').trans (fillOne_colCells_ne df hjk)
    · rw [if_neg h]
      exact fillCols_colCells_not_mem js df hk'

theorem fillCols_colCells_mem : ∀ (js : List Nat) (df : Dataset) {k : Nat},
    js.Nodup → k ∈ js → (∀ r ∈ df.rows, k < r.length) →
    colCells (fillCols df js).1 k = fillT (colCells df k)
  | [], _, _, _, hk, _ => absurd hk (List.not_mem_nil _)
  | j :: js, df, k, hnd, hk, hlen => by
    rw [fillCols]
    rcases List.mem_cons.mp hk with rfl | hk'
    · have hknotin : k ∉ js := (List.nodup_cons.mp hnd).1
      by_cases h : missingCount df k > 0
      · rw [if_pos h]
        have h2 : colCells (fillCols (fillOne df k) js).1 k = colCells (fillOne df k) k :=
          fillCols_colCells_not_mem js (fillOne df k) hknotin
        rw [show ((fillCols (fillOne df k) js).1,
              (k, (⟨missingCount df k, (median (nonNA (colCells df k))).map round4⟩ : FillEntry)) ::
                (fillCols (fillOne df k) js).2).1 = (fillCols (fillOne df k) js).1 from rfl]
        rw [h2]
        unfold fillOne fillT
        have hmc : ((colCells df k).filter (· = Cell.na)).length > 0 := h
        rw [if_pos hmc]
        cases median (nonNA (colCells df k))
        · rfl
        · exact colCells_updateCol_self df k _ hlen
      · rw [if_neg h]
        rw [fillCols_colCells_not_mem js df hknotin]
        unfold fillT
        rw [if_neg (by exact h)]
    · have hjk : j ≠ k := fun he => (List.nodup_cons.mp hnd).1 (he ▸ hk')
      have hnd' : js.Nodup := (List.nodup_cons.mp hnd).2
      by_cases h : missingCount df j > 0
      · rw [if_pos h]
        have hlen' : ∀ r ∈ (fillOne df j).rows, k < r.length :=
          rowlen_of_rowLens (fillOne_rowLens df j) hlen
        have := fillCols_colCells_mem js (fillOne df j) hnd' hk' hlen'
        rw [show ((fillCols (fillOne df j) js).1,
              (j, (⟨missingCount df j, (median (nonNA (colCells df j))).map round4⟩ : FillEntry)) ::
                (fillCols (fillOne df j) js).2).1 = (fillCols (fillOne df j) js).1 from rfl]
        rw [this, fillOne_colCells_ne df hjk]
      · rw [if_neg h]
        exact fillCols_colCells_mem js df hnd' hk' hlen

theorem fillCols_keys : ∀ (js : List Nat) (df : Dataset) {k : Nat} (e : FillEntry),
    k ∉ js → (k, e) ∉ (fillCols df js).2
  | [], _, _, _, _ => List.not_mem_nil _
  | j :: js, df, k, e, hk => by
    have hjk : j ≠ k := fun he => hk (he ▸ List.mem_cons_self j js)
    have hk' : k ∉ js := fun hm => hk (List.mem_cons_of_mem j hm)
    rw [fillCols]
    by_cases h : missingCount df j > 0
    · rw [if_pos h]
      intro hmem
      rcases List.mem_cons.mp hmem with he | hmem'
      · exact hjk (congrArg Prod.fst he).symm
      · exact fillCols_keys js (fillOne df j) e hk' hmem'
    · rw [if_neg h]
      exact fillCols_keys js df e hk'

theorem fillCols_entry : ∀ (js : List Nat) (df : Dataset) {k : Nat} (e : FillEntry),
    js.Nodup → k ∈ js →
    ((k, e) ∈ (fillCols df js).2 ↔ fillEntry? (colCells df k) = some e)
  | [], _, _, _, _, hk => absurd hk (List.not_mem_nil _)
  | j :: js, df, k, e, hnd, hk => by
    rw [fillCols]
    rcases List.mem_cons.mp hk with rfl | hk'
    · have hknotin : k ∉ js := (List.nodup_cons.mp hnd).1
      by_cases h : missingCount df k > 0
      · rw [if_pos h]
        unfold fillEntry?
        have hmc : ((colCells df k).filter (· = Cell.na)).length > 0 := h
        rw [if_pos hmc]
        simp only [missingCount]
        constructor
        · intro hmem
          rcases List.mem_cons.mp hmem with he | hmem'
          · rw [Prod.mk.injEq] at he
            rw [he.2]
          · exact absurd hmem' (fillCols_keys js (fillOne df k) e hknotin)
        · intro he
          rw [← Option.some_inj.mp he]
          exact List.mem_cons_self _ _
      · rw [if_neg h]
        unfold fillEntry?
        rw [if_neg (by exact h)]
        constructor
        · intro hmem
          exact absurd hmem (fillCols_keys js df e hknotin)
        · intro he
          cases he
    · have hjk : j ≠ k := fun he => (List.nodup_cons.mp hnd).1 (he ▸ hk')
      have hnd' : js.Nodup := (List.nodup_cons.mp hnd).2
      by_cases h : missingCount df j > 0
      · rw [if_pos h]
        constructor
        · intro hmem
          rcases List.mem_cons.mp hmem with he | hmem'
          · exact absurd (congrArg Prod.fst he).symm hjk
          · rw [← fillOne_colCells_ne df hjk]
            exact (fillCols_entry js (fillOne df j) e hnd' hk').mp hmem'
        · intro he
          apply List.mem_cons_of_mem
          apply (fillCols_entry js (fillOne df j) e hnd' hk').mpr
          rw [fillOne_colCells_ne df hjk]
          exact he
      · rw [if_neg h]
        exact fillCols_entry js df e hnd' hk'

/-! ### The cap loop acts column-wise -/

theorem capOne_header (df : Dataset) (j : Nat) (p1 p99 : ℚ) :
    (capOne df j p1 p99).header = df.header := rfl

theorem capOne_rowLens (df : Dataset) (j : Nat) (p1 p99 : ℚ) :
    (capOne df j p1 p99).rows.map List.length = df.rows.map List.length :=
  updateCol_rowLens df j _

theorem capOne_colCells_ne (df : Dataset) {j k : Nat} (h : j ≠ k) (p1 p99 : ℚ) :
    colCells (capOne df j p1 p99) k = colCells df k :=
  colCells_updateCol_ne df h _

theorem capCols_header : ∀ (js : List Nat) (df : Dataset),
    (capCols df js).1.header = df.header
  | [], _ => rfl
  | j :: js, df => by
    rw [capCols]
    split
    · rename_i p1 p99 hq1 hq99
      by_cases h : outlierCount (nonNA (colCells df j)) p1 p99 > 0
      · rw [if_pos h]
        exact (capCols_header js (capOne df j p1 p99)).trans (capOne_header df j p1 p99)
      · rw [if_neg h]
        exact capCols_header js df
    · exact capCols_header js df

theorem capCols_rowLens : ∀ (js : List Nat) (df : Dataset),
    (capCols df js).1.rows.map List.length = df.rows.map List.length
  | [], _ => rfl
  | j :: js, df => by
    rw [capCols]
    split
    · rename_i p1 p99 hq1 hq99
      by_cases h : outlierCount (nonNA (colCells df j)) p1 p99 > 0
      · rw [if_pos h]
        exact (capCols_rowLens js (capOne df j p1 p99)).trans (capOne_rowLens df j p1 p99)
      · rw [if_neg h]
        exact capCols_rowLens js df
    · exact capCols_rowLens js df

theorem capCols_colCells_not_mem : ∀ (js : List Nat) (df : Dataset) {k : Nat}, k ∉ js →
    colCells (capCols df js).1 k = colCells df k
  | [], _, _, _ => rfl
  | j :: js, df, k, hk => by
    have hjk : j ≠ k := fun he => hk (he ▸ List.mem_cons_self j js)
    have hk' : k ∉ js := fun hm => hk (List.mem_cons_of_mem j hm)
    rw [capCols]
    split
    · rename_i p1 p99 hq1 hq99
      by_cases h : outlierCount (nonNA (colCells df j)) p1 p99 > 0
      · rw [if_pos h]
        exact (capCols_colCells_not_mem js (capOne df j p1 p99) hk').trans
          (capOne_colCells_ne df hjk p1 p99)
      · rw [if_neg h]
        exact capCols_colCells_not_mem js df hk'
    · exact capCols_colCells_not_mem js df hk'

theorem capCols_colCells_mem : ∀ (js : List Nat) (df : Dataset) {k : Nat},
    js.Nodup → k ∈ js → (∀ r ∈ df.rows, k < r.length) →
    colCells (capCols df js).1 k = capT (colCells df k)
  | [], _, _, _, hk, _ => absurd hk (List.not_mem_nil _)
  | j :: js, df, k, hnd, hk, hlen => by
    rw [capCols]
    rcases List.mem_cons.mp hk with rfl | hk'
    · have hknotin : k ∉ js := (List.nodup_cons.mp hnd).1
      unfold capT
      split
      · rename_i p1 p99 hq1 hq99
        by_cases h : outlierCount (nonNA (colCells df k)) p1 p99 > 0
        · simp only [if_pos h]
          rw [capCols_colCells_not_mem js (capOne df k p1 p99) hknotin]
          exact colCells_updateCol_self df k _ hlen
        · simp only [if_neg h]
          exact capCols_colCells_not_mem js df hknotin
      · exact capCols_colCells_not_mem js df hknotin
    · have hjk : j ≠ k := fun he => (List.nodup_cons.mp hnd).1 (he ▸ hk')
      have hnd' : js.Nodup := (List.nodup_cons.mp hnd).2
      split
      · rename_i p1 p99 hq1 hq99
        by_cases h : outlierCount (nonNA (colCells df j)) p1 p99 > 0
        · rw [if_pos h]
          have hlen' : ∀ r ∈ (capOne df j p1 p99).rows, k < r.length :=
            rowlen_of_rowLens (capOne_rowLens df j p1 p99) hlen
          have := capCols_colCells_mem js (capOne df j p1 p99) hnd' hk' hlen'
          rw [show ((capCols (capOne df j p1 p99) js).1,
                (j, (⟨outlierCount (nonNA (colCells df j)) p1 p99, round4 p1, round4 p99⟩ :
                  CapEntry)) :: (capCols (capOne df j p1 p99) js).2).1 =
                (capCols (capOne df j p1 p99) js).1 from rfl]
          rw [this, capOne_colCells_ne df hjk p1 p99]
        · rw [if_neg h]
          exact capCols_colCells_mem js df hnd' hk' hlen
      · exact capCols_colCells_mem js df hnd' hk' hlen

theorem capCols_keys : ∀ (js : List Nat) (df : Dataset) {k : Nat} (e : CapEntry),
    k ∉ js → (k, e) ∉ (capCols df js).2
  | [], _, _, _, _ => List.not_mem_nil _
  | j :: js, df, k, e, hk => by
    have hjk : j ≠ k := fun he => hk (he ▸ List.mem_cons_self j js)
    have hk' : k ∉ js := fun hm => hk (List.mem_cons_of_mem j hm)
    rw [capCols]
    split
    · rename_i p1 p99 hq1 hq99
      by_cases h : outlierCount (nonNA (colCells df j)) p1 p99 > 0
      · rw [if_pos h]
        intro hmem
        rcases List.mem_cons.mp hmem with he | hmem'
        · exact hjk (congrArg Prod.fst he).symm
        · exact capCols_keys js (capOne df j p1 p99) e hk' hmem'
      · rw [if_neg h]
        exact capCols_keys js df e hk'
    · exact capCols_keys js df e hk'

theorem capCols_entry : ∀ (js : List Nat) (df : Dataset) {k : Nat} (e : CapEntry),
    js.Nodup → k ∈ js →
    ((k, e) ∈ (capCols df js).2 ↔ capEntry? (colCells df k) = some e)
  | [], _, _, _, _, hk => absurd hk (List.not_mem_nil _)
  | j :: js, df, k, e, hnd, hk => by
    rw [capCols]
    rcases List.mem_cons.mp hk with rfl | hk'
    · have hknotin : k ∉ js := (List.nodup_cons.mp hnd).1
      unfold capEntry?
      split
      · rename_i p1 p99 hq1 hq99
        by_cases h : outlierCount (nonNA (colCells df k)) p1 p99 > 0
        · simp only [if_pos h]
          constructor
          · intro hmem
            rcases List.mem_cons.mp hmem with he | hmem'
            · rw [Prod.mk.injEq] at he
              rw [he.2]
            · exact absurd hmem' (capCols_keys js (capOne df k p1 p99) e hknotin)
          · intro he
            rw [← Option.some_inj.mp he]
            exact List.mem_cons_self _ _
        · simp only [if_neg h]
          constructor
          · intro hmem
            exact absurd hmem (capCols_keys js df e hknotin)
          · intro he
            cases he
      · constructor
        · intro hmem
          exact absurd hmem (capCols_keys js df e hknotin)
        · intro he
          cases he
    · have hjk : j ≠ k := fun he => (List.nodup_cons.mp hnd).1 (he ▸ hk')
      have hnd' : js.Nodup := (List.nodup_cons.mp hnd).2
      split
      · rename_i p1 p99 hq1 hq99
        by_cases h : outlierCount (nonNA (colCells df j)) p1 p99 > 0
        · rw [if_pos h]
          constructor
          · intro hmem
            rcases List.mem_cons.mp hmem with he | hmem'
            · exact absurd (congrArg Prod.fst he).symm hjk
            · rw [← capOne_colCells_ne df hjk p1 p99]
              exact (capCols_entry js (capOne df j p1 p99) e hnd' hk').mp hmem'
          · intro he
            apply List.mem_cons_of_mem
            apply (capCols_entry js (capOne df j p1 p99) e hnd' hk').mpr
            rw [capOne_colCells_ne df hjk p1 p99]
            exact he
        · rw [if_neg h]
          exact capCols_entry js df e hnd' hk'
      · exact capCols_entry js df e hnd' hk'

/-! ### Miscellaneous helper lemmas -/

theorem numericIdx_nodup (df : Dataset) : (numericIdx df).Nodup :=
  (List.nodup_range _).filter _

theorem numericIdx_lt {df : Dataset} {j : Nat} (hj : j ∈ numericIdx df) : j < ncols df :=
  List.mem_range.mp (List.mem_of_mem_filter hj)

theorem mem_nonNA {cs : List Cell} {v : ℚ} : v ∈ nonNA cs ↔ Cell.num v ∈ cs := by
  unfold nonNA
  rw [List.mem_filterMap]
  constructor
  · rintro ⟨c, hc, he⟩
    cases c with
    | na => exact absurd he (by simp)
    | num w => rw [show w = v from by simpa using he] at hc; exact hc
    | str s => exact absurd he (by simp)
  · intro hm
    exact ⟨Cell.num v, hm, rfl⟩

theorem nonNA_map_clipCell (p1 p99 : ℚ) (cs : List Cell) :
    nonNA (cs.map (clipCell p1 p99)) = (nonNA cs).map (clipQ p1 p99) := by
  induction cs with
  | nil => rfl
  | cons c cs ih =>
    cases c with
    | na => simpa [nonNA, clipCell] using ih
    | num v => simpa [nonNA, clipCell] using ih
    | str s => simpa [nonNA, clipCell] using ih

theorem na_mem_capT {cs : List Cell} : Cell.na ∈ capT cs ↔ Cell.na ∈ cs := by
  unfold capT
  split
  · rename_i p1 p99 hq1 hq99
    by_cases h : outlierCount (nonNA cs) p1 p99 > 0
    · rw [if_pos h]
      constructor
      · intro hm
        obtain ⟨c, hc, he⟩ := List.mem_map.mp hm
        cases c with
        | na => exact hc
        | num v => exact absurd he (by simp [clipCell])
        | str s => exact absurd he (by simp [clipCell])
      · intro hm
        exact List.mem_map.mpr ⟨Cell.na, hm, rfl⟩
    · rw [if_neg h]
  · exact Iff.rfl

theorem quantile_ne_nil {l : List ℚ} {q v : ℚ} (h : quantile q l = some v) : l ≠ [] := by
  intro hl
  rw [hl] at h
  exact absurd h (by simp [quantile])

theorem clipQ_le_upper (p1 p99 v : ℚ) : clipQ p1 p99 v ≤ p99 :=
  min_le_left _ _

theorem le_clipQ_lower {p1 p99 : ℚ} (h : p1 ≤ p99) (v : ℚ) : p1 ≤ clipQ p1 p99 v :=
  le_min h (le_max_left _ _)

theorem clipQ_of_mem {p1 p99 v : ℚ} (h1 : p1 ≤ v) (h2 : v ≤ p99) : clipQ p1 p99 v = v := by
  unfold clipQ
  rw [max_eq_right h1, min_eq_right h2]

theorem fillCols_no_missing : ∀ (js : List Nat) (df : Dataset),
    (∀ j ∈ js, missingCount df j = 0) → fillCols df js = (df, [])
  | [], _, _ => rfl
  | j :: js, df, h => by
    rw [fillCols, if_neg (by rw [h j (List.mem_cons_self j js)]; omega)]
    exact fillCols_no_missing js df (fun k hk => h k (List.mem_cons_of_mem j hk))

theorem map_getD_range (l : List String) :
    (List.range l.length).map (fun j => l.getD j "") = l := by
  apply List.ext_getElem
  · simp
  · intro i h1 h2
    simp [List.getD_eq_getElem?_getD, List.getElem?_eq_getElem h2]

/-! ### Step-level facts about `cleanData` -/

theorem step1_header (df : Dataset) : (step1 df).1.header = df.header :=
  fillCols_header _ _

theorem step1_rowLens (df : Dataset) :
    (step1 df).1.rows.map List.length = df.rows.map List.length :=
  fillCols_rowLens _ _

theorem nrows_step1 (df : Dataset) : nrows (step1 df).1 = nrows df :=
  nrows_of_rowLens (step1_rowLens df)

theorem step2_header (df : Dataset) : (step2 df).header = df.header :=
  step1_header df

theorem step2_rows_sublist (df : Dataset) : (step2 df).rows.Sublist (step1 df).1.rows :=
  dedup_sublist _

theorem nrows_step2_le (df : Dataset) : nrows (step2 df) ≤ nrows (step1 df).1 :=
  (step2_rows_sublist df).length_le

theorem step3_header (df : Dataset) : (step3 df).1.header = df.header :=
  (capCols_header _ _).trans (step2_header df)

theorem nrows_step3 (df : Dataset) : nrows (step3 df).1 = nrows (step2 df) :=
  nrows_of_rowLens (capCols_rowLens _ _)

theorem wf_step1 {df : Dataset} (h : df.wf) : (step1 df).1.wf :=
  wf_of_rowLens (step1_header df) (step1_rowLens df) h

theorem wf_step2 {df : Dataset} (h : df.wf) : (step2 df).wf := by
  intro r hr
  rw [step2_header df]
  have := (step2_rows_sublist df).mem hr
  rw [(wf_step1 h) r this, step1_header df]

theorem wf_step3 {df : Dataset} (h : df.wf) : (step3 df).1.wf :=
  wf_of_rowLens ((capCols_header _ _).trans rfl) (capCols_rowLens _ _) (wf_step2 h)

theorem colCells_step2_sublist (df : Dataset) (j : Nat) :
    (colCells (step2 df) j).Sublist (colCells (step1 df).1 j) :=
  (step2_rows_sublist df).map _

theorem ncols_step2 (df : Dataset) : ncols (step2 df) = ncols df := by
  unfold ncols
  rw [step2_header df]

/-! ### The `check_missing` loop -/

theorem cmLoop_ok : ∀ (js : List Nat) (df : Dataset) (es : List (String × Nat × ℚ)),
    cmLoop df js = Except.ok es →
    (js ≠ [] → nrows df ≠ 0) ∧
    es = js.map (fun j => (df.header.getD j "", missingCount df j,
      round2 ((missingCount df j : ℚ) / (nrows df : ℚ) * 100)))
  | [], df, es, h => by
    refine ⟨fun hne => absurd rfl hne, ?_⟩
    have : es = [] := by
      have h' : Except.ok ([] : List (String × Nat × ℚ)) = Except.ok es := h
      exact ((Except.ok.injEq _ _).mp h').symm
    rw [this]
    rfl
  | j :: js, df, es, h => by
    unfold cmLoop at h
    by_cases hz : (nrows df : ℚ) = 0
    · rw [show pyDiv ((missingCount df j : ℚ)) ((nrows df : ℚ)) =
          Except.error "division by zero" from by unfold pyDiv; rw [if_pos hz]] at h
      exact absurd h (by simp [Bind.bind, Except.bind])
    · have hq : pyDiv ((missingCount df j : ℚ)) ((nrows df : ℚ)) =
          Except.ok ((missingCount df j : ℚ) / (nrows df : ℚ)) := by
        unfold pyDiv
        rw [if_neg hz]
      rw [hq] at h
      cases hrest : cmLoop df js with
      | error e =>
        rw [hrest] at h
        exact absurd h (by simp [Bind.bind, Except.bind])
      | ok rest =>
        rw [hrest] at h
        have hes : es = (df.header.getD j "", missingCount df j,
            round2 ((missingCount df j : ℚ) / (nrows df : ℚ) * 100)) :: rest := by
          have h' : Except.ok ((df.header.getD j "", missingCount df j,
              round2 ((missingCount df j : ℚ) / (nrows df : ℚ) * 100)) :: rest) =
              Except.ok es := h
          exact ((Except.ok.injEq _ _).mp h').symm
        obtain ⟨-, hrec⟩ := cmLoop_ok js df rest hrest
        refine ⟨fun _ => ?_, ?_⟩
        · intro h0
          exact hz (by rw [h0]; rfl)
        · rw [hes, hrec]
          rfl

/-! ### Inverting a successful `profile_data` call -/

theorem numericIdx_nil_of_rows_nil {df : Dataset} (hr : df.rows = []) :
    numericIdx df = [] := by
  simp [numericIdx, isNumericCol, hr]

theorem profile_error_of_no_numeric {df : Dataset} (hn : numericIdx df = []) :
    profile_data (some df) =
      ToolResult.errorJson "Object of type int64 is not JSON serializable" := by
  unfold profile_data profileRaw catchAll
  dsimp only
  rw [if_pos hn]

theorem profile_ok_of_numeric {df : Dataset} (hn : numericIdx df ≠ []) :
    profile_data (some df) = ToolResult.ok (profileOf df) := by
  unfold profile_data profileRaw catchAll
  dsimp only
  rw [if_neg hn]

theorem profile_ok_inv {df : Dataset} {p : DatasetProfile}
    (hp : profile_data (some df) = ToolResult.ok p) :
    profileOf df = p ∧ numericIdx df ≠ [] := by
  by_cases hn : numericIdx df = []
  · rw [profile_error_of_no_numeric hn] at hp
    cases hp
  · refine ⟨?_, hn⟩
    rw [profile_ok_of_numeric hn] at hp
    exact (ToolResult.ok.injEq _ _).mp hp

/-! ### The claims -/

/-- C2: for every input frame, the row count of the dataset produced by
`clean_data` is at most the input row count, and the reported `cleaned_rows`
equals `original_rows` minus `duplicates_removed`. -/
theorem clean_row_counts (df : Dataset) :
    nrows (cleanData df).2 ≤ nrows df ∧
    (cleanData df).1.cleaned_rows =
      (cleanData df).1.original_rows - (cleanData df).1.duplicates_removed := by
  have h2 : nrows (step2 df) ≤ nrows df :=
    le_trans (nrows_step2_le df) (le_of_eq (nrows_step1 df))
  constructor
  · show nrows (step3 df).1 ≤ nrows df
    rw [nrows_step3]
    exact h2
  · show nrows (step3 df).1 = nrows df - (nrows (step1 df).1 - nrows (step2 df))
    rw [nrows_step3, nrows_step1]
    omega

/-- C3: `clean_data` writes a dataset with exactly the input's header (same
column set, same order) and the same per-row column count: cleaning never
adds, removes or reorders columns. -/
theorem clean_preserves_columns (df : Dataset) (h : df.wf) :
    (cleanData df).2.header = df.header ∧ (cleanData df).2.wf :=
  ⟨step3_header df, wf_step3 h⟩

/-- Witness for `clean_preserves_columns` at a concrete frame. -/
theorem clean_preserves_columns_witness :
    exTwo.wf ∧ ((cleanData exTwo).2.header = exTwo.header ∧ (cleanData exTwo).2.wf) :=
  ⟨by decide, clean_preserves_columns exTwo (by decide)⟩

/-- C4: every call of `profile_data`, `check_missing` or `clean_data` returns
either a structured success or a structured `{"error": ...}` result — no
read, parse, compute or write failure escapes the tool boundary as an
uncaught exception. -/
theorem tool_boundary_error_handling (input : Option Dataset) (writeOk : Bool) :
    ((∃ r, profile_data input = ToolResult.ok r) ∨
      (∃ m, profile_data input = ToolResult.errorJson m)) ∧
    ((∃ r, check_missing input = ToolResult.ok r) ∨
      (∃ m, check_missing input = ToolResult.errorJson m)) ∧
    ((∃ r, clean_data input writeOk = ToolResult.ok r) ∨
      (∃ m, clean_data input writeOk = ToolResult.errorJson m)) := by
  refine ⟨?_, ?_, ?_⟩
  · cases h : profileRaw input with
    | ok r => exact Or.inl ⟨r, by unfold profile_data catchAll; rw [h]⟩
    | error e => exact Or.inr ⟨e, by unfold profile_data catchAll; rw [h]⟩
  · cases h : checkMissingRaw input with
    | ok r => exact Or.inl ⟨r, by unfold check_missing catchAll; rw [h]⟩
    | error e => exact Or.inr ⟨e, by unfold check_missing catchAll; rw [h]⟩
  · cases h : cleanRaw input writeOk with
    | ok r => exact Or.inl ⟨r, by unfold clean_data catchAll; rw [h]⟩
    | error e => exact Or.inr ⟨e, by unfold clean_data catchAll; rw [h]⟩

/-- C1 as stated is false: on a frame with an all-missing numeric column
(pandas parses an all-empty CSV column as `float64`), the median is `NaN`,
`fillna(NaN)` fills nothing, and the written output keeps the missing cells
in surviving rows. -/
theorem clean_fills_missing_counterexample :
    isNumericCol exAllNA 1 = true ∧
    nrows (cleanData exAllNA).2 = nrows exAllNA ∧
    Cell.na ∈ colCells (cleanData exAllNA).2 1 := by decide

/-- Every list mapped by a function that fixes its members is unchanged. -/
theorem map_eq_self_of {α : Type} {l : List α} {f : α → α} (h : ∀ a ∈ l, f a = a) :
    l.map f = l := by
  induction l with
  | nil => rfl
  | cons a l ih =>
    rw [List.map_cons, h a (List.mem_cons_self a l),
      ih (fun b hb => h b (List.mem_cons_of_mem a hb))]

/-- The fill step turns column `j` (numeric, with median `m`) into the
cell-wise `fillna(m)` image of the input column. -/
theorem step1_colCells_fill {df : Dataset} (h : df.wf) {j : Nat} (hj : j ∈ numericIdx df)
    {m : ℚ} (hm : median (nonNA (colCells df j)) = some m) :
    colCells (step1 df).1 j = (colCells df j).map (fillCell m) := by
  have hlen : ∀ r ∈ df.rows, j < r.length := wf_rowlen h (numericIdx_lt hj)
  have h1 : colCells (step1 df).1 j = fillT (colCells df j) :=
    fillCols_colCells_mem (numericIdx df) df (numericIdx_nodup df) hj hlen
  have hmap : fillT (colCells df j) = (colCells df j).map (fillCell m) := by
    unfold fillT
    by_cases hc : ((colCells df j).filter (· = Cell.na)).length > 0
    · rw [if_pos hc, hm]
    · rw [if_neg hc]
      have hfil : (colCells df j).filter (· = Cell.na) = [] :=
        List.length_eq_zero.mp (by omega)
      have hno : ∀ c ∈ colCells df j, ¬(c = Cell.na) := by
        intro c hc' he
        have hmemf : c ∈ (colCells df j).filter (· = Cell.na) :=
          List.mem_filter.mpr ⟨hc', by simp [he]⟩
        rw [hfil] at hmemf
        exact absurd hmemf (List.not_mem_nil c)
      symm
      apply map_eq_self_of
      intro c hc'
      cases c with
      | na => exact absurd rfl (hno Cell.na hc')
      | num v => rfl
      | str s => rfl
  exact h1.trans hmap

/-- C1 (amended): for every numeric column with at least one non-missing
value (so that its median exists), the fill step replaces exactly the
missing cells with the column median, and the written output dataset has no
missing cell in that column. -/
theorem clean_fills_missing (df : Dataset) (h : df.wf) {j : Nat} (hj : j ∈ numericIdx df)
    {m : ℚ} (hm : median (nonNA (colCells df j)) = some m) :
    colCells (step1 df).1 j = (colCells df j).map (fillCell m) ∧
    Cell.na ∉ colCells (cleanData df).2 j := by
  have hstep1 : colCells (step1 df).1 j = (colCells df j).map (fillCell m) :=
    step1_colCells_fill h hj hm
  refine ⟨hstep1, ?_⟩
  have hna1 : Cell.na ∉ colCells (step1 df).1 j := by
    rw [hstep1]
    intro hmem
    obtain ⟨c, _, he⟩ := List.mem_map.mp hmem
    cases c with
    | na => exact absurd he (by simp [fillCell])
    | num v => exact absurd he (by simp [fillCell])
    | str s => exact absurd he (by simp [fillCell])
  have hna2 : Cell.na ∉ colCells (step2 df) j :=
    fun hmem => hna1 ((colCells_step2_sublist df j).mem hmem)
  have hlen2 : ∀ r ∈ (step2 df).rows, j < r.length :=
    wf_rowlen (wf_step2 h) (by rw [ncols_step2]; exact numericIdx_lt hj)
  have h3 : colCells (step3 df).1 j = capT (colCells (step2 df) j) :=
    capCols_colCells_mem (numericIdx df) (step2 df) (numericIdx_nodup df) hj hlen2
  show Cell.na ∉ colCells (step3 df).1 j
  rw [h3]
  exact fun hmem => hna2 (na_mem_capT.mp hmem)

/-- Witness for `clean_fills_missing` at a concrete frame. -/
theorem clean_fills_missing_witness :
    exFill.wf ∧ 0 ∈ numericIdx exFill ∧
    median (nonNA (colCells exFill 0)) = some 2 ∧
    (colCells (step1 exFill).1 0 = (colCells exFill 0).map (fillCell 2) ∧
     Cell.na ∉ colCells (cleanData exFill).2 0) :=
  ⟨by decide, by decide, by decide, clean_fills_missing exFill (by decide) (by decide) (by decide)⟩

/-- C5 as stated is false: a cleaned file is not a fixed point of `clean`.
On the two-row column `{1, 2}` the first run caps both values to
`[1.01, 1.99]`; the second run recomputes the percentiles of the capped data,
obtains the strictly tighter `[1.0198, 1.9802]`, and reports a nonempty
`capped_outliers` again. -/
theorem clean_idempotent_counterexample :
    ¬((cleanData (cleanData exTwo).2).1.duplicates_removed = 0 ∧
      (cleanData (cleanData exTwo).2).1.filled_missing = [] ∧
      (cleanData (cleanData exTwo).2).1.capped_outliers = []) := by decide

/-- C5 (amended): on a frame that is already duplicate-free and has no
missing cell in any numeric column — which holds of a first `clean` output
except for its all-missing numeric columns and capping-induced duplicates —
a second `clean` reports `duplicates_removed = 0` and `filled_missing = {}`;
`capped_outliers` can still be nonempty, because the percentile bounds are
recomputed from the already-capped data and tighten strictly while a column
retains two distinct values. -/
theorem clean_noop_on_clean_frame (df : Dataset) (hnodup : df.rows.Nodup)
    (hnomiss : ∀ j ∈ numericIdx df, missingCount df j = 0) :
    (cleanData df).1.duplicates_removed = 0 ∧ (cleanData df).1.filled_missing = [] := by
  have hs1 : step1 df = (df, []) := fillCols_no_missing (numericIdx df) df hnomiss
  constructor
  · show nrows (step1 df).1 - nrows (step2 df) = 0
    have h2 : nrows (step2 df) = nrows df := by
      show ((step2 df).rows).length = df.rows.length
      unfold step2
      rw [hs1]
      show (dedup df.rows).length = df.rows.length
      rw [dedup_of_nodup hnodup]
    rw [h2, hs1]
    show nrows df - nrows df = 0
    omega
  · show ((step1 df).2.map _) = []
    rw [hs1]
    rfl

/-- Witness for `clean_noop_on_clean_frame` at a concrete frame. -/
theorem clean_noop_on_clean_frame_witness :
    exTwo.rows.Nodup ∧ (∀ j ∈ numericIdx exTwo, missingCount exTwo j = 0) ∧
    ((cleanData exTwo).1.duplicates_removed = 0 ∧ (cleanData exTwo).1.filled_missing = []) :=
  ⟨by decide, by decide, clean_noop_on_clean_frame exTwo (by decide) (by decide)⟩

/-- C8 as stated is false: the fill value written into the file is the
unrounded median while the reported `fill_value` is rounded to 4 decimals.
On the column `{NaN, 10⁻⁵, 3·10⁻⁵}` the missing cell is filled (and written)
as the median `2·10⁻⁵ = 1/50000`, but the report records
`fill_value = round(2·10⁻⁵, 4) = 0`, a value that appears nowhere in the
written file. -/
theorem fill_value_rounding_counterexample :
    (cleanData exTinyMedian).1.filled_missing = [("a", ⟨1, some 0⟩)] ∧
    colCells (cleanData exTinyMedian).2 0 =
      [Cell.num (1/50000), Cell.num (51/5000000), Cell.num (149/5000000)] ∧
    Cell.num 0 ∉ colCells (cleanData exTinyMedian).2 0 := by decide

/-- C8 (amended): the two sides follow one fixed but *different* policy
each — the cells are filled with the unrounded median `m`, while the report
entry records `round(m, 4)`; the two agree only when the median has at most
four decimal places. -/
theorem fill_report_rounds_median (df : Dataset) (h : df.wf) {j : Nat} (hj : j ∈ numericIdx df)
    {m : ℚ} (hm : median (nonNA (colCells df j)) = some m) (hpos : 0 < missingCount df j) :
    (df.header.getD j "", (⟨missingCount df j, some (round4 m)⟩ : FillEntry)) ∈
      (cleanData df).1.filled_missing ∧
    colCells (step1 df).1 j = (colCells df j).map (fillCell m) := by
  constructor
  · have hent : (j, (⟨missingCount df j, some (round4 m)⟩ : FillEntry)) ∈ (step1 df).2 := by
      apply (fillCols_entry (numericIdx df) df _ (numericIdx_nodup df) hj).mpr
      unfold fillEntry?
      rw [if_pos (show ((colCells df j).filter (· = Cell.na)).length > 0 from hpos), hm]
      rfl
    show _ ∈ (step1 df).2.map (fun e => (df.header.getD e.1 "", e.2))
    exact List.mem_map.mpr ⟨(j, ⟨missingCount df j, some (round4 m)⟩), hent, rfl⟩
  · exact step1_colCells_fill h hj hm

/-- Witness for `fill_report_rounds_median` at a concrete frame. -/
theorem fill_report_rounds_median_witness :
    exFill.wf ∧ 0 ∈ numericIdx exFill ∧
    median (nonNA (colCells exFill 0)) = some 2 ∧ 0 < missingCount exFill 0 ∧
    ((exFill.header.getD 0 "", (⟨missingCount exFill 0, some (round4 2)⟩ : FillEntry)) ∈
        (cleanData exFill).1.filled_missing ∧
      colCells (step1 exFill).1 0 = (colCells exFill 0).map (fillCell 2)) :=
  ⟨by decide, by decide, by decide, by decide,
   fill_report_rounds_median exFill (by decide) (by decide) (by decide) (by decide)⟩

/-- C6: for each numeric column (with its 1st/99th percentiles `p1 ≤ p99`
computed from the post-impute, post-dedup data by linear interpolation), the
outlier step records the entry `{capped_count = n, round4 p1, round4 p99}`
exactly when `n`, the number of values strictly outside `[p1, p99]`, is
positive; the output column is the cell-wise clip of the input column (so
in-range values are untouched) and every remaining value lies in
`[p1, p99]`. -/
theorem cap_step_spec (df : Dataset) (h : df.wf) {j : Nat} (hj : j ∈ numericIdx df)
    {p1 p99 : ℚ}
    (hq1 : quantile (1/100) (nonNA (colCells (step2 df) j)) = some p1)
    (hq99 : quantile (99/100) (nonNA (colCells (step2 df) j)) = some p99) :
    (∀ e : CapEntry, ((j, e) ∈ (step3 df).2 ↔
      (0 < outlierCount (nonNA (colCells (step2 df) j)) p1 p99 ∧
       e = ⟨outlierCount (nonNA (colCells (step2 df) j)) p1 p99, round4 p1, round4 p99⟩))) ∧
    colCells (step3 df).1 j = (colCells (step2 df) j).map (clipCell p1 p99) ∧
    (∀ v ∈ nonNA (colCells (step3 df).1 j), p1 ≤ v ∧ v ≤ p99) ∧
    (∀ v : ℚ, p1 ≤ v → v ≤ p99 → clipQ p1 p99 v = v) := by
  have hne : nonNA (colCells (step2 df) j) ≠ [] := quantile_ne_nil hq1
  have hp : p1 ≤ p99 := quantile_mono hne (by norm_num) (by norm_num) hq1 hq99
  have hlen2 : ∀ r ∈ (step2 df).rows, j < r.length :=
    wf_rowlen (wf_step2 h) (by rw [ncols_step2]; exact numericIdx_lt hj)
  have hcol : colCells (step3 df).1 j = capT (colCells (step2 df) j) :=
    capCols_colCells_mem (numericIdx df) (step2 df) (numericIdx_nodup df) hj hlen2
  have hcapT : capT (colCells (step2 df) j) =
      (colCells (step2 df) j).map (clipCell p1 p99) := by
    unfold capT
    rw [hq1, hq99]
    dsimp only
    by_cases hn : outlierCount (nonNA (colCells (step2 df) j)) p1 p99 > 0
    · rw [if_pos hn]
    · rw [if_neg hn]
      have hall : ∀ v ∈ nonNA (colCells (step2 df) j), p1 ≤ v ∧ v ≤ p99 := by
        intro v hv
        have h0 : (nonNA (colCells (step2 df) j)).countP
            (fun v => decide (v < p1) || decide (p99 < v)) = 0 := by
          unfold outlierCount at hn
          omega
        have hfalse := List.countP_eq_zero.mp h0 v hv
        constructor
        · by_contra hx
          exact hfalse (by simp [lt_of_not_le hx])
        · by_contra hx
          exact hfalse (by simp [lt_of_not_le hx])
      symm
      apply map_eq_self_of
      intro c hc
      cases c with
      | na => rfl
      | str s => rfl
      | num v =>
        have hv := hall v (mem_nonNA.mpr hc)
        show Cell.num (clipQ p1 p99 v) = Cell.num v
        rw [clipQ_of_mem hv.1 hv.2]
  refine ⟨?_, hcol.trans hcapT, ?_, fun v h1 h2 => clipQ_of_mem h1 h2⟩
  · intro e
    have hent : ((j, e) ∈ (step3 df).2 ↔ capEntry? (colCells (step2 df) j) = some e) :=
      capCols_entry (numericIdx df) (step2 df) e (numericIdx_nodup df) hj
    rw [hent]
    unfold capEntry?
    rw [hq1, hq99]
    dsimp only
    by_cases hn : outlierCount (nonNA (colCells (step2 df) j)) p1 p99 > 0
    · rw [if_pos hn]
      constructor
      · intro he
        exact ⟨hn, (Option.some_inj.mp he).symm⟩
      · rintro ⟨-, rfl⟩
        rfl
    · rw [if_neg hn]
      constructor
      · intro he
        cases he
      · rintro ⟨hpos, -⟩
        exact absurd hpos hn
  · intro v hv
    rw [hcol, hcapT, nonNA_map_clipCell] at hv
    obtain ⟨u, hu, rfl⟩ := List.mem_map.mp hv
    exact ⟨le_clipQ_lower hp u, clipQ_le_upper p1 p99 u⟩

/-- Witness for `cap_step_spec` at a concrete frame. -/
theorem cap_step_spec_witness :
    exTwo.wf ∧ 0 ∈ numericIdx exTwo ∧
    quantile (1/100) (nonNA (colCells (step2 exTwo) 0)) = some (101/100) ∧
    quantile (99/100) (nonNA (colCells (step2 exTwo) 0)) = some (199/100) ∧
    ((∀ e : CapEntry, ((0, e) ∈ (step3 exTwo).2 ↔
        (0 < outlierCount (nonNA (colCells (step2 exTwo) 0)) (101/100) (199/100) ∧
         e = ⟨outlierCount (nonNA (colCells (step2 exTwo) 0)) (101/100) (199/100),
              round4 (101/100), round4 (199/100)⟩))) ∧
      colCells (step3 exTwo).1 0 =
        (colCells (step2 exTwo) 0).map (clipCell (101/100) (199/100)) ∧
      (∀ v ∈ nonNA (colCells (step3 exTwo).1 0), 101/100 ≤ v ∧ v ≤ 199/100) ∧
      (∀ v : ℚ, 101/100 ≤ v → v ≤ 199/100 → clipQ (101/100) (199/100) v = v)) :=
  ⟨by decide, by decide, by decide, by decide,
   cap_step_spec exTwo (by decide) (by decide) (by decide) (by decide)⟩

/-- C7's error clause is false: on a text-only frame with data rows,
`check_missing` succeeds, while `profile_data` errors — `df.describe()`
falls back to the object summary whose numpy `int64` `count`/`freq` values
make `json.dumps` raise `TypeError` — so the two do not error together. -/
theorem check_profile_error_mismatch :
    check_missing (some exTextOnly) =
      ToolResult.ok
        ({ total_rows := 2, missing_by_column := [("name", 0, 0)] } : MissingReport) ∧
    profile_data (some exTextOnly) =
      ToolResult.errorJson "Object of type int64 is not JSON serializable" := by
  constructor
  · decide
  · decide

/-- C7 (amended): whenever `check_missing` and `profile_data` both succeed
on the same input, they agree exactly — same total row count, and identical
per-column missing counts and missing percentages.  The error behaviours
however differ: on a frame with no numeric column but at least one data row,
`profile_data` errors (`json.dumps` on the object-describe fallback) while
`check_missing` succeeds (see the counterexample). -/
theorem check_profile_agree (input : Option Dataset) (m : MissingReport) (p : DatasetProfile)
    (hc : check_missing input = ToolResult.ok m) (hp : profile_data input = ToolResult.ok p) :
    m.total_rows = p.rows ∧
    m.missing_by_column.map (fun e => (e.1, e.2.1)) = p.missing_counts ∧
    m.missing_by_column.map (fun e => (e.1, some e.2.2)) = p.missing_pct := by
  cases input with
  | none =>
    exact absurd (show ToolResult.errorJson "read_csv failed" = ToolResult.ok m from hc)
      (by simp)
  | some df =>
    have hp' : profileOf df = p := (profile_ok_inv hp).1
    cases hloop : cmLoop df (List.range (ncols df)) with
    | error e =>
      have : ToolResult.errorJson e = ToolResult.ok m := by
        rw [show check_missing (some df) = ToolResult.errorJson e from by
          unfold check_missing checkMissingRaw catchAll
          dsimp only
          rw [hloop]
          rfl] at hc
        exact hc
      exact absurd this (by simp)
    | ok es =>
      have hm' : ({ total_rows := nrows df, missing_by_column := es } : MissingReport) = m := by
        have h1 : check_missing (some df) =
            ToolResult.ok { total_rows := nrows df, missing_by_column := es } := by
          unfold check_missing checkMissingRaw catchAll
          dsimp only
          rw [hloop]
          rfl
        rw [h1] at hc
        exact (ToolResult.ok.injEq _ _).mp hc
      obtain ⟨hnz, hes⟩ := cmLoop_ok (List.range (ncols df)) df es hloop
      subst hm'
      subst hp'
      refine ⟨rfl, ?_, ?_⟩
      · show es.map _ = (List.range (ncols df)).map _
        rw [hes, List.map_map]
        rfl
      · show es.map _ = (List.range (ncols df)).map (fun j => (df.header.getD j "", missingPct df j))
        rw [hes, List.map_map]
        by_cases hr : List.range (ncols df) = []
        · rw [hr]
          rfl
        · have hn0 : nrows df ≠ 0 := hnz hr
          apply List.map_congr_left
          intro j _
          show (df.header.getD j "", some (round2 ((missingCount df j : ℚ) / (nrows df : ℚ) * 100))) =
            (df.header.getD j "", missingPct df j)
          unfold missingPct
          rw [if_neg hn0]

/-- Witness for `check_profile_agree` at a concrete frame. -/
theorem check_profile_agree_witness :
    check_missing (some exOne) =
      ToolResult.ok ({ total_rows := 1, missing_by_column := [("a", 0, 0)] } : MissingReport) ∧
    profile_data (some exOne) = ToolResult.ok (profileOf exOne) ∧
    (({ total_rows := 1, missing_by_column := [("a", 0, 0)] } : MissingReport).total_rows =
        (profileOf exOne).rows ∧
      ([("a", (0 : Nat), (0 : ℚ))].map (fun e => (e.1, e.2.1)) = (profileOf exOne).missing_counts ∧
       [("a", (0 : Nat), (0 : ℚ))].map (fun e => (e.1, some e.2.2)) = (profileOf exOne).missing_pct)) :=
  ⟨by decide, by decide,
   check_profile_agree (some exOne) _ _ (by decide) (by decide)⟩

/-- C9: whenever `profile_data` returns a profile at all, its statistics
mapping covers exactly the numeric columns, in header order; on a frame with
no numeric column no statistics mapping is returned, because `json.dumps`
fails on the numpy `int64` values of the object-describe fallback and the
tool returns the structured error instead. -/
theorem statistics_numeric_only (df : Dataset) (p : DatasetProfile)
    (hp : profile_data (some df) = ToolResult.ok p) :
    p.statistics.map Prod.fst = (numericIdx df).map (fun j => df.header.getD j "") := by
  obtain ⟨hp', hn⟩ := profile_ok_inv hp
  subst hp'
  show ((describeIdx df).map _).map Prod.fst = _
  rw [List.map_map]
  unfold describeIdx
  rw [if_neg hn]
  rfl

/-- Witness for `statistics_numeric_only` at a concrete frame with one
numeric and one textual column. -/
theorem statistics_numeric_only_witness :
    profile_data (some exMixed) = ToolResult.ok (profileOf exMixed) ∧
    (profileOf exMixed).statistics.map Prod.fst =
      (numericIdx exMixed).map (fun j => exMixed.header.getD j "") :=
  ⟨by decide, statistics_numeric_only exMixed (profileOf exMixed) (by decide)⟩

/-- C10's profile half is false: on a header-only frame (one column, zero
data rows) `check_missing` does return the structured division-by-zero
error, but `profile_data` does not return a successful profile with
`rows = 0` — every column of a zero-row frame is `object`, `df.describe()`
takes the object fallback, and `json.dumps` raises `TypeError` on its numpy
`int64` values, so `profile_data` returns a structured error as well. -/
theorem zero_rows_profile_error_counterexample :
    check_missing (some exZeroRows) = ToolResult.errorJson "division by zero" ∧
    profile_data (some exZeroRows) =
      ToolResult.errorJson "Object of type int64 is not JSON serializable" := by
  constructor
  · decide
  · decide

/-- C10 (amended): on a well-formed frame with at least one column and zero
data rows, `check_missing`'s per-column percentage `n_missing / len(df)`
raises `ZeroDivisionError`, and `profile_data` also fails — serializing the
object-describe fallback raises `TypeError` — so both tools return
structured error results (with different messages) rather than crashing or
succeeding. -/
theorem zero_rows_both_error (df : Dataset) (hr : df.rows = [])
    (hc : df.header ≠ []) :
    check_missing (some df) = ToolResult.errorJson "division by zero" ∧
    profile_data (some df) =
      ToolResult.errorJson "Object of type int64 is not JSON serializable" := by
  constructor
  · have hnc : ncols df ≠ 0 := fun h0 => hc (List.length_eq_zero.mp h0)
    obtain ⟨k, hk⟩ : ∃ k, ncols df = k + 1 := ⟨ncols df - 1, by omega⟩
    have hnr : ((nrows df : ℚ)) = 0 := by
      unfold nrows
      rw [hr]
      rfl
    have hloop : cmLoop df (List.range (ncols df)) = Except.error "division by zero" := by
      rw [hk, List.range_succ_eq_map]
      unfold cmLoop
      rw [show pyDiv ((missingCount df 0 : ℚ)) ((nrows df : ℚ)) =
          Except.error "division by zero" from by unfold pyDiv; rw [if_pos hnr]]
      rfl
    unfold check_missing checkMissingRaw catchAll
    dsimp only
    rw [hloop]
    rfl
  · exact profile_error_of_no_numeric (numericIdx_nil_of_rows_nil hr)

/-- Witness for `zero_rows_both_error` at a concrete frame. -/
theorem zero_rows_both_error_witness :
    exZeroRows.rows = [] ∧ exZeroRows.header ≠ [] ∧
    (check_missing (some exZeroRows) = ToolResult.errorJson "division by zero" ∧
     profile_data (some exZeroRows) =
       ToolResult.errorJson "Object of type int64 is not JSON serializable") :=
  ⟨rfl, by decide, zero_rows_both_error exZeroRows rfl (by decide)⟩

end

end DataEng
